import Mathlib

/-!
Verification of the route-matching and response-dispatch engine of the
`mocker` mock-HTTP-server CLI.

The source (`main.go`) reads a JSON configuration into a list of routes
`{method, path, response: {status, body}}`, registers each route on an HTTP
router with `strings.ToUpper(method)`, and serves each matched request via
`respondWithJSON`, which JSON-marshals the configured body, sets
`Content-Type: application/json`, writes the configured status code and the
marshalled bytes.  The route matching itself (path segmentation, `\x7bname\x7d`
parameters, 404/405 fallbacks) and the compile-time validation of the route
set are delegated to the external `chi` router, which is not part of this
repository's sources; those parts are modelled from the specification
(RouteCompiler, Matcher and the 404/405 arms of the Dispatcher).
-/

/-- A JSON value, as produced by decoding the configuration file.  Numbers are
modelled as integers (the configured bodies in scope use only integers,
strings, booleans, arrays and objects). -/
inductive Json where
  | null : Json
  | bool (b : Bool) : Json
  | num (n : Int) : Json
  | str (s : String) : Json
  | arr (elems : List Json) : Json
  | obj (fields : List (String × Json)) : Json
deriving Repr

/-- The left-brace character, written via its code point. -/
def lbraceChar : Char := Char.ofNat 123

/-- The right-brace character, written via its code point. -/
def rbraceChar : Char := Char.ofNat 125

/-- Escape one character for inclusion in a JSON string literal. -/
def escapeChar (c : Char) : String :=
  if c = '"' then "\\\"" else if c = '\\' then "\\\\" else String.singleton c

/-- Escape a string for inclusion in a JSON string literal. -/
def escapeStr (s : String) : String :=
  String.join (s.data.map escapeChar)

mutual

/-- Serialize a JSON value to its textual form, as Go's `json.Marshal` does
for values decoded from a configuration file. -/
def Json.serialize : Json → String
  | .null => "null"
  | .bool true => "true"
  | .bool false => "false"
  | .num n => toString n
  | .str s => "\"" ++ escapeStr s ++ "\""
  | .arr elems => "[" ++ serializeElems elems ++ "]"
  | .obj fields => String.singleton lbraceChar ++ serializeFields fields ++ String.singleton rbraceChar

/-- Serialize the comma-separated elements of a JSON array. -/
def serializeElems : List Json → String
  | [] => ""
  | [j] => j.serialize
  | j :: rest => j.serialize ++ "," ++ serializeElems rest

/-- Serialize the comma-separated fields of a JSON object. -/
def serializeFields : List (String × Json) → String
  | [] => ""
  | [(k, j)] => "\"" ++ escapeStr k ++ "\":" ++ j.serialize
  | (k, j) :: rest => "\"" ++ escapeStr k ++ "\":" ++ j.serialize ++ "," ++ serializeFields rest

end

/-- A Go value of static type `any`, as handed to `json.Marshal`.  A value
decoded from JSON is always in the `json` case; Go also admits values
(channels, functions, NaN floats, cycles) that `json.Marshal` rejects, kept
abstract as `unsupported`. -/
inductive GoValue where
  | json (j : Json) : GoValue
  | unsupported (description : String) : GoValue
deriving Repr

/-- `json.Marshal`: serializes a `json`-representable value, and fails with an
error on an unsupported one. -/
def marshal : GoValue → Except String String
  | .json j => .ok j.serialize
  | .unsupported d => .error ("json: unsupported type: " ++ d)

/-- One `/`-delimited component of a compiled path pattern: a literal segment
matching exact text, or a `\x7bname\x7d` parameter segment matching any single
non-empty request segment and capturing it. -/
inductive PathSegment where
  | lit (text : String) : PathSegment
  | param (name : String) : PathSegment
deriving Repr, DecidableEq

/-- One route of the JSON configuration, as decoded by `main` into
`routesType`: an HTTP method, a path template, and the response's status code
and body. -/
structure RouteSpec where
  method : String
  path : String
  status : Int
  body : GoValue
deriving Repr

/-- A compiled route: the uppercased method, the segmented path pattern, and
the configured response. -/
structure CompiledRoute where
  method : String
  segments : List PathSegment
  status : Int
  body : GoValue
deriving Repr

/-- A configuration error reported before the listener opens. -/
inductive ConfigError where
  | emptyMethod : ConfigError
  | badSegment (segment : String) : ConfigError
  | dupParamName : ConfigError
  | duplicateShape : ConfigError
deriving Repr, DecidableEq

/-- Split a list of characters on `/`, keeping empty pieces (the char-level
counterpart of Go's `strings.Split(s, "/")`). -/
def splitSegsAux : List Char → List (List Char)
  | [] => [[]]
  | c :: cs =>
    match splitSegsAux cs with
    | [] => [[]]
    | seg :: segs =>
      if c = '/' then [] :: seg :: segs else (c :: seg) :: segs

/-- Split a string on `/` into its (possibly empty) pieces. -/
def splitSegs (s : String) : List String :=
  (splitSegsAux s.data).map (fun cs => ⟨cs⟩)

/-- Modelled from the spec: normalize a path by splitting it on `/` and
dropping the empty segments produced by a leading or trailing slash (so
`/a/b` and `/a/b/` are equivalent).  The production code delegates this to
the external router, which is not part of this repository. -/
def normalizePath (s : String) : List String :=
  (splitSegs s).filter (fun seg => seg ≠ "")

/-- Uppercase one ASCII character, as Go's `strings.ToUpper` does on the
ASCII method strings in scope. -/
def upperChar (c : Char) : Char :=
  if 97 ≤ c.toNat ∧ c.toNat ≤ 122 then Char.ofNat (c.toNat - 32) else c

/-- Uppercase a string characterwise (Go's `strings.ToUpper`). -/
def upperStr (s : String) : String :=
  ⟨s.data.map upperChar⟩

/-- Modelled from the spec: parse one non-empty piece of a path template.  A
segment delimited by braces with a non-empty interior becomes a parameter;
a segment free of brace characters is a literal; anything else is an
unterminated or empty parameter, a configuration error. -/
def parseSegment (s : String) : Except ConfigError PathSegment :=
  match s.data with
  | [] => .error (.badSegment s)
  | c :: rest =>
    if c = lbraceChar then
      if rest.getLast? = some rbraceChar then
        let interior := rest.dropLast
        if interior = [] then .error (.badSegment s)
        else if interior.any (fun d => d = lbraceChar ∨ d = rbraceChar) then .error (.badSegment s)
        else .ok (.param ⟨interior⟩)
      else .error (.badSegment s)
    else if (c :: rest).any (fun d => d = lbraceChar ∨ d = rbraceChar) then .error (.badSegment s)
    else .ok (.lit s)

/-- The parameter names of a pattern, in order. -/
def paramNames (segs : List PathSegment) : List String :=
  segs.filterMap (fun seg => match seg with | .param n => some n | .lit _ => none)

/-- Modelled from the spec: compile one route spec — reject an empty method,
segment the path template, reject malformed parameter segments and duplicate
parameter names, and uppercase the method (`strings.ToUpper` in `main`). -/
def compileSpec (s : RouteSpec) : Except ConfigError CompiledRoute :=
  if s.method = "" then .error .emptyMethod
  else
    match (normalizePath s.path).mapM parseSegment with
    | .error e => .error e
    | .ok segs =>
      if (paramNames segs).Nodup then
        .ok ⟨upperStr s.method, segs, s.status, s.body⟩
      else .error .dupParamName

/-- The shape of a pattern: its sequence of literal-vs-parameter kinds,
keeping literal text and ignoring parameter names. -/
def shapeOf (r : CompiledRoute) : List (Option String) :=
  r.segments.map (fun seg => match seg with | .lit t => some t | .param _ => none)

/-- Two compiled routes conflict when they share method and shape. -/
def conflictB (a b : CompiledRoute) : Bool :=
  a.method == b.method && shapeOf a == shapeOf b

/-- Two compiled routes are conflict-free: they differ in method or shape. -/
def noConflict (a b : CompiledRoute) : Prop :=
  ¬ (a.method = b.method ∧ shapeOf a = shapeOf b)

/-- Modelled from the spec: compile the remaining specs, with `acc` the
routes already compiled (in registration order); a new route sharing method
and shape with an earlier one is a duplicate-shape configuration error. -/
def compileAux (acc : List CompiledRoute) : List RouteSpec → Except ConfigError (List CompiledRoute)
  | [] => .ok acc
  | s :: rest =>
    match compileSpec s with
    | .error e => .error e
    | .ok r =>
      if acc.any (fun a => conflictB a r) then .error .duplicateShape
      else compileAux (acc ++ [r]) rest

/-- Modelled from the spec: `compile(specs) -> RouteTable`, failing with a
`ConfigError` before the listener opens.  The production code delegates route
registration and conflict handling to the external router. -/
def compile (specs : List RouteSpec) : Except ConfigError (List CompiledRoute) :=
  compileAux [] specs

/-- The outcome of matching one request against the route table. -/
inductive MatchOutcome where
  | matched (route : CompiledRoute) (params : List (String × String)) : MatchOutcome
  | methodNotAllowed (allowed : List String) : MatchOutcome
  | notFound : MatchOutcome
deriving Repr

/-- Modelled from the spec: path-only matching of a pattern against the
normalized request segments — equal segment counts, each literal equal to the
corresponding request segment (case-sensitive), each parameter matching any
single non-empty request segment and capturing it. -/
def matchSegs : List PathSegment → List String → Option (List (String × String))
  | [], [] => some []
  | .lit t :: ps, s :: ss => if t = s then matchSegs ps ss else none
  | .param n :: ps, s :: ss =>
    if s = "" then none else (matchSegs ps ss).map (fun captured => (n, s) :: captured)
  | _, _ => none

/-- The routes whose path matches the normalized request segments, in
registration order, each with its captured parameters. -/
def pathMatches (table : List CompiledRoute) (segs : List String) :
    List (CompiledRoute × List (String × String)) :=
  table.filterMap (fun r => (matchSegs r.segments segs).map (fun ps => (r, ps)))

/-- Drop repeated strings, keeping the first occurrence of each. -/
def dedupAux (seen : List String) : List String → List String
  | [] => []
  | x :: xs => if seen.contains x then dedupAux seen xs else x :: dedupAux (x :: seen) xs

/-- The set of methods of the path-matching routes, first occurrences kept in
registration order. -/
def dedup (xs : List String) : List String := dedupAux [] xs

/-- Modelled from the spec: `match(table, method, path) -> MatchOutcome` —
normalize the path, scan the table in registration order for path matches,
return the first path-matching route whose method equals the uppercased
request method, else 405 with the set of path-matching methods, else 404.
The production code delegates this decision to the external router. -/
def matchTable (table : List CompiledRoute) (method path : String) : MatchOutcome :=
  let segs := normalizePath path
  let upMethod := upperStr method
  let pm := pathMatches table segs
  match pm.find? (fun rp => rp.1.method == upMethod) with
  | some rp => .matched rp.1 rp.2
  | none =>
    if pm.isEmpty then .notFound
    else .methodNotAllowed (dedup (pm.map (fun rp => rp.1.method)))

/-- An HTTP response as written by the dispatcher: status code, headers and
body bytes. -/
structure HttpResponse where
  status : Int
  headers : List (String × String)
  body : String
deriving Repr, DecidableEq

/-- What one request's handler does to the process: write a response, or
terminate the whole process (`log.Fatalf`). -/
inductive HandlerResult where
  | ok (resp : HttpResponse) : HandlerResult
  | fatalExit : HandlerResult
deriving Repr, DecidableEq

/-- `respondWithJSON` from `main.go`: marshal the payload — returning the
error, with nothing written, when marshalling fails — then set
`Content-Type: application/json`, write the status code and the marshalled
bytes. -/
def respondWithJSON (code : Int) (payload : GoValue) : Except String HttpResponse :=
  match marshal payload with
  | .error e => .error e
  | .ok bytes => .ok ⟨code, [("Content-Type", "application/json")], bytes⟩

/-- The per-route handler closure from `main.go`: call `respondWithJSON` with
the route's configured status and body, and on error call `log.Fatalf`,
which terminates the process. -/
def serveRoute (r : CompiledRoute) : HandlerResult :=
  match respondWithJSON r.status r.body with
  | .ok resp => .ok resp
  | .error _ => .fatalExit

/-- A minimal JSON error body `\x7b"error":"<msg>"\x7d`. -/
def errJson (msg : String) : String :=
  String.singleton lbraceChar ++ "\"error\":\"" ++ msg ++ "\"" ++ String.singleton rbraceChar

/-- `dispatch(outcome) -> HttpResponse`: a matched route is served by the
handler from `main.go`; the 404 and 405 fallbacks, which the production code
delegates to the external router, are modelled from the spec — 405 with an
`Allow` header joining the allowed methods and 404, each with a minimal JSON
error body. -/
def dispatch : MatchOutcome → HandlerResult
  | .matched r _ => serveRoute r
  | .methodNotAllowed allowed =>
    .ok ⟨405, [("Allow", String.intercalate ", " allowed)], errJson "method not allowed"⟩
  | .notFound => .ok ⟨404, [], errJson "not found"⟩

/-- The body of the `GET /api/users` route of the built-in example
configuration. -/
def usersBody : GoValue :=
  .json (.obj [("users", .arr [.str "alice", .str "bob", .str "charlie"])])

/-- The `GET /api/users` route of the built-in example configuration,
compiled. -/
def usersRoute : CompiledRoute := ⟨"GET", [.lit "api", .lit "users"], 200, usersBody⟩

/-- A table holding only the `GET /api/users` route. -/
def usersTable : List CompiledRoute := [usersRoute]

/-- The `PATCH /api/users/\x7bid\x7d` route of the built-in example
configuration, compiled. -/
def usersIdRoute : CompiledRoute :=
  ⟨"PATCH", [.lit "api", .lit "users", .param "id"], 200,
    .json (.obj [("id", .str "\x7bid\x7d"), ("updated", .bool true), ("role", .str "admin")])⟩

/-- A table holding only the `PATCH /api/users/\x7bid\x7d` route. -/
def usersIdTable : List CompiledRoute := [usersIdRoute]

/-- A spec for the literal route `GET /users/me`. -/
def meSpec : RouteSpec := ⟨"GET", "/users/me", 200, .json (.str "me")⟩

/-- A spec for the parameter route `GET /users/\x7bid\x7d`, overlapping
`meSpec` with a distinct shape. -/
def idSpec : RouteSpec := ⟨"GET", "/users/\x7bid\x7d", 201, .json (.str "user")⟩

/-- `meSpec` compiled. -/
def meRoute : CompiledRoute := ⟨"GET", [.lit "users", .lit "me"], 200, .json (.str "me")⟩

/-- `idSpec` compiled. -/
def idRoute : CompiledRoute := ⟨"GET", [.lit "users", .param "id"], 201, .json (.str "user")⟩

/-- A spec for `GET /a/\x7bx\x7d`. -/
def axSpec : RouteSpec := ⟨"GET", "/a/\x7bx\x7d", 200, .json .null⟩

/-- A spec for `GET /a/\x7by\x7d`: the same method and shape as `axSpec`,
differing only in the parameter name. -/
def aySpec : RouteSpec := ⟨"GET", "/a/\x7by\x7d", 201, .json (.str "b")⟩

/-- A compiled route whose configured body `json.Marshal` rejects. -/
def badRoute : CompiledRoute := ⟨"GET", [.lit "boom"], 200, .unsupported "chan int"⟩

/-- Modelled from the spec: the local-recovery response the specification
claims for a serialization failure — status 500 with the minimal JSON error
body.  The production handler has no such path. -/
def serializationFailureResponse : HttpResponse :=
  ⟨500, [], errJson "internal serialization error"⟩

/-- `Char.ofNat` of a valid code point has that code point. -/
theorem char_toNat_ofNat (n : Nat) (h : n.isValidChar) : (Char.ofNat n).toNat = n := by
  unfold Char.ofNat
  rw [dif_pos h]
  unfold Char.ofNatAux Char.toNat
  simp [UInt32.toNat]

/-- ASCII uppercasing is idempotent. -/
theorem upperChar_idem (c : Char) : upperChar (upperChar c) = upperChar c := by
  unfold upperChar
  by_cases h : 97 ≤ c.toNat ∧ c.toNat ≤ 122
  · rw [if_pos h]
    have hv : (c.toNat - 32).isValidChar := Or.inl (by omega)
    rw [char_toNat_ofNat _ hv, if_neg (by omega)]
  · rw [if_neg h, if_neg h]

/-- Uppercasing a string is idempotent. -/
theorem upperStr_idem (s : String) : upperStr (upperStr s) = upperStr s := by
  unfold upperStr
  simp only [List.map_map]
  exact congrArg String.mk (List.map_congr_left (fun c _ => upperChar_idem c))

/-- Splitting on `/` always yields at least one piece. -/
theorem splitSegsAux_ne_nil (l : List Char) : splitSegsAux l ≠ [] := by
  cases l with
  | nil => simp [splitSegsAux]
  | cons c cs =>
    unfold splitSegsAux
    cases splitSegsAux cs with
    | nil => simp
    | cons seg segs => dsimp; split <;> simp

/-- A trailing slash contributes exactly one trailing empty piece. -/
theorem splitSegsAux_append_slash (l : List Char) :
    splitSegsAux (l ++ ['/']) = splitSegsAux l ++ [[]] := by
  induction l with
  | nil => rfl
  | cons c cs ih =>
    obtain ⟨seg, segs, h⟩ : ∃ seg segs, splitSegsAux cs = seg :: segs := by
      cases hh : splitSegsAux cs with
      | nil => exact absurd hh (splitSegsAux_ne_nil cs)
      | cons a b => exact ⟨a, b, rfl⟩
    have h2 : splitSegsAux (cs ++ ['/']) = seg :: (segs ++ [[]]) := by
      rw [ih, h]; rfl
    rw [List.cons_append]
    unfold splitSegsAux
    rw [h2, h]
    dsimp only
    split <;> simp

/-- A string without slashes splits into the single piece that is itself. -/
theorem splitSegsAux_no_slash (l : List Char) (h : ∀ c ∈ l, c ≠ '/') :
    splitSegsAux l = [l] := by
  induction l with
  | nil => rfl
  | cons c cs ih =>
    have hc : c ≠ '/' := h c (by simp)
    have ihh := ih (fun d hd => h d (by simp [hd]))
    simp [splitSegsAux, ihh, hc]

/-- Path normalization ignores a trailing slash. -/
theorem normalizePath_append_slash (p : String) :
    normalizePath (p ++ "/") = normalizePath p := by
  unfold normalizePath splitSegs
  have hd : (p ++ "/").data = p.data ++ ['/'] := by
    rw [String.data_append]
  rw [hd, splitSegsAux_append_slash]
  simp [List.filter_append]

/-- A pattern never matches a request with a different segment count. -/
theorem matchSegs_length_ne (segs : List PathSegment) (req : List String)
    (h : req.length ≠ segs.length) : matchSegs segs req = none := by
  induction segs generalizing req with
  | nil =>
    cases req with
    | nil => simp at h
    | cons r rs => rfl
  | cons s ps ih =>
    cases req with
    | nil => cases s <;> rfl
    | cons r rs =>
      have hlen : rs.length ≠ ps.length := by simpa using h
      cases s with
      | lit t =>
        simp only [matchSegs]
        split
        · exact ih rs hlen
        · rfl
      | param n =>
        simp only [matchSegs]
        split
        · rfl
        · rw [ih rs hlen]; rfl

/-- A pattern of literals followed by one parameter matches the request made
of those literals followed by any non-empty value, capturing it. -/
theorem matchSegs_lits_param (pre : List String) (n v : String) (hv : v ≠ "") :
    matchSegs (pre.map .lit ++ [.param n]) (pre ++ [v]) = some [(n, v)] := by
  induction pre with
  | nil => simp [matchSegs, hv]
  | cons a rest ih => simp [matchSegs, ih]

/-- Compilation preserves pairwise conflict-freedom of the accumulator. -/
theorem compileAux_pairwise (specs : List RouteSpec) :
    ∀ acc table, List.Pairwise noConflict acc → compileAux acc specs = .ok table →
      List.Pairwise noConflict table := by
  induction specs with
  | nil =>
    intro acc table hp h
    simp only [compileAux, Except.ok.injEq] at h
    exact h ▸ hp
  | cons s rest ih =>
    intro acc table hp h
    cases hc : compileSpec s with
    | error e => simp [compileAux, hc] at h
    | ok r =>
      simp only [compileAux, hc] at h
      by_cases hconf : (acc.any fun a => conflictB a r) = true
      · rw [if_pos hconf] at h; exact absurd h (by simp)
      · rw [if_neg hconf] at h
        refine ih (acc ++ [r]) table ?_ h
        rw [List.pairwise_append]
        refine ⟨hp, List.pairwise_singleton _ _, ?_⟩
        intro a ha b hb
        simp only [List.mem_singleton] at hb
        subst hb
        intro ⟨h1, h2⟩
        apply hconf
        rw [List.any_eq_true]
        exact ⟨a, ha, by simp [conflictB, h1, h2]⟩

/-- Every table a successful compilation produces is pairwise conflict-free. -/
theorem compile_pairwise (specs : List RouteSpec) (table : List CompiledRoute)
    (h : compile specs = .ok table) : List.Pairwise noConflict table :=
  compileAux_pairwise specs [] table (List.Pairwise.nil) h

/-- C6: matching is trailing-slash-insensitive — for every route table and
path, a request for the path with a trailing slash appended yields the same
match outcome as the request without it. -/
theorem claim6_trailing_slash_insensitive (table : List CompiledRoute) (m p : String) :
    matchTable table m (p ++ "/") = matchTable table m p := by
  simp only [matchTable, normalizePath_append_slash]

/-- C7: method matching is insensitive to the case of the incoming request
method — the match outcome for a request method equals the outcome for its
uppercased form. -/
theorem claim7_method_case_insensitive (table : List CompiledRoute) (p m : String) :
    matchTable table m p = matchTable table (upperStr m) p := by
  simp only [matchTable, upperStr_idem]

/-- C1: when a request matches a configured route, the response carries the
route's configured status, exactly the JSON serialization of the route's
configured body, and the header `Content-Type: application/json`; the
captured path parameters never influence the response. -/
theorem claim1_matched_response (table : List CompiledRoute) (m p : String)
    (r : CompiledRoute) (params params2 : List (String × String)) (bytes : String)
    (hm : matchTable table m p = .matched r params)
    (hs : marshal r.body = .ok bytes) :
    dispatch (matchTable table m p)
        = .ok ⟨r.status, [("Content-Type", "application/json")], bytes⟩
      ∧ dispatch (.matched r params2) = dispatch (.matched r params) := by
  constructor
  · rw [hm]
    simp [dispatch, serveRoute, respondWithJSON, hs]
  · rfl

/-- Witness for C1 at the example configuration's `GET /api/users` route. -/
theorem claim1_witness :
    matchTable usersTable "GET" "/api/users" = .matched usersRoute []
    ∧ marshal usersRoute.body = .ok "\x7b\"users\":[\"alice\",\"bob\",\"charlie\"]\x7d"
    ∧ dispatch (matchTable usersTable "GET" "/api/users")
        = .ok ⟨usersRoute.status, [("Content-Type", "application/json")],
            "\x7b\"users\":[\"alice\",\"bob\",\"charlie\"]\x7d"⟩
    ∧ dispatch (.matched usersRoute [("id", "123")]) = dispatch (.matched usersRoute []) :=
  ⟨by rfl, by rfl,
    (claim1_matched_response usersTable "GET" "/api/users" usersRoute [] [("id", "123")]
      "\x7b\"users\":[\"alice\",\"bob\",\"charlie\"]\x7d" (by rfl) (by rfl)).1,
    (claim1_matched_response usersTable "GET" "/api/users" usersRoute [] [("id", "123")]
      "\x7b\"users\":[\"alice\",\"bob\",\"charlie\"]\x7d" (by rfl) (by rfl)).2⟩

/-- C4: when no configured route's path matches the request, the outcome is
`notFound` and the response has status 404 with body
`\x7b"error":"not found"\x7d`. -/
theorem claim4_not_found (table : List CompiledRoute) (m p : String)
    (h : ∀ r ∈ table, matchSegs r.segments (normalizePath p) = none) :
    matchTable table m p = .notFound
    ∧ dispatch (matchTable table m p) = .ok ⟨404, [], errJson "not found"⟩ := by
  have hpm : pathMatches table (normalizePath p) = [] := by
    unfold pathMatches
    rw [List.filterMap_eq_nil_iff]
    intro r hr
    rw [h r hr]; rfl
  have h1 : matchTable table m p = .notFound := by
    simp [matchTable, hpm]
  exact ⟨h1, by rw [h1]; rfl⟩

/-- Witness for C4: `GET /nope` against the single-route table. -/
theorem claim4_witness :
    matchTable usersTable "GET" "/nope" = .notFound
    ∧ dispatch (matchTable usersTable "GET" "/nope") = .ok ⟨404, [], errJson "not found"⟩ :=
  claim4_not_found usersTable "GET" "/nope" (by decide)

/-- Counterexample to C3 as stated: for the matched route `badRoute`, whose
configured body fails JSON serialization, the handler does not respond with
the claimed 500 recovery response — it calls `log.Fatalf`, terminating the
process. -/
theorem claim3_counterexample :
    dispatch (.matched badRoute []) = .fatalExit
    ∧ dispatch (.matched badRoute []) ≠ .ok serializationFailureResponse := by
  exact ⟨rfl, by decide⟩

/-- C3 amended: for every matched route whose configured body fails JSON
serialization, the handler writes no response and terminates the process via
`log.Fatalf`; the failure is not recovered locally. -/
theorem claim3_amended_fatal (r : CompiledRoute) (params : List (String × String))
    (e : String) (h : marshal r.body = .error e) :
    dispatch (.matched r params) = .fatalExit := by
  simp [dispatch, serveRoute, respondWithJSON, h]

/-- Witness for the amended C3 at `badRoute`. -/
theorem claim3_witness :
    marshal badRoute.body = .error "json: unsupported type: chan int"
    ∧ dispatch (.matched badRoute []) = .fatalExit :=
  ⟨rfl, claim3_amended_fatal badRoute [] "json: unsupported type: chan int" rfl⟩

/-- C5: when at least one route's path matches but none of the path-matching
routes has the request's (uppercased) method, the outcome is 405 with an
`Allow` header joining the methods of all path-matching routes and the
minimal JSON error body. -/
theorem claim5_method_not_allowed (table : List CompiledRoute) (m p : String)
    (h1 : pathMatches table (normalizePath p) ≠ [])
    (h2 : ∀ rp ∈ pathMatches table (normalizePath p), rp.1.method ≠ upperStr m) :
    matchTable table m p
        = .methodNotAllowed
            (dedup ((pathMatches table (normalizePath p)).map (fun rp => rp.1.method)))
    ∧ dispatch (matchTable table m p)
        = .ok ⟨405,
            [("Allow", String.intercalate ", "
              (dedup ((pathMatches table (normalizePath p)).map (fun rp => rp.1.method))))],
            errJson "method not allowed"⟩ := by
  have hfind : (pathMatches table (normalizePath p)).find?
      (fun rp => rp.1.method == upperStr m) = none := by
    rw [List.find?_eq_none]
    intro rp hrp
    simp [h2 rp hrp]
  have hm : matchTable table m p
      = .methodNotAllowed
          (dedup ((pathMatches table (normalizePath p)).map (fun rp => rp.1.method))) := by
    simp [matchTable, hfind, List.isEmpty_iff, h1]
  exact ⟨hm, by rw [hm]; rfl⟩

/-- Witness for C5: `POST /api/users` when `/api/users` is registered only
for GET — 405 with `Allow: GET`. -/
theorem claim5_witness :
    matchTable usersTable "POST" "/api/users" = .methodNotAllowed ["GET"]
    ∧ dispatch (matchTable usersTable "POST" "/api/users")
        = .ok ⟨405, [("Allow", "GET")], errJson "method not allowed"⟩ :=
  claim5_method_not_allowed usersTable "POST" "/api/users"
    (by
      have e : pathMatches usersTable (normalizePath "/api/users") = [(usersRoute, [])] := rfl
      rw [e]; simp)
    (by decide)

/-- C8: two routes of distinct shapes may both match a request; the earlier
registered one wins, and compilation accepts the overlapping pair — shown
generically for two-route tables, and concretely for `/users/me` versus
`/users/\x7bid\x7d` in both registration orders. -/
theorem claim8_first_match_precedence (r1 r2 : CompiledRoute) (m p : String)
    (ps1 ps2 : List (String × String))
    (h1 : matchSegs r1.segments (normalizePath p) = some ps1)
    (hm1 : r1.method = upperStr m)
    (h2 : matchSegs r2.segments (normalizePath p) = some ps2) :
    matchTable [r1, r2] m p = .matched r1 ps1
    ∧ compile [meSpec, idSpec] = .ok [meRoute, idRoute]
    ∧ matchTable [meRoute, idRoute] "GET" "/users/me" = .matched meRoute []
    ∧ matchTable [idRoute, meRoute] "GET" "/users/me" = .matched idRoute [("id", "me")] := by
  refine ⟨?_, by rfl, by rfl, by rfl⟩
  simp [matchTable, pathMatches, h1, h2, List.find?, hm1]

/-- Witness for C8 at the concrete `/users/me` overlap. -/
theorem claim8_witness :
    matchTable [meRoute, idRoute] "GET" "/users/me" = .matched meRoute [] :=
  (claim8_first_match_precedence meRoute idRoute "GET" "/users/me" [] [("id", "me")]
    (by rfl) (by rfl) (by rfl)).1

/-- C9: compiling two specs that reduce to the same (method, shape) — here
`GET /a/\x7bx\x7d` and `GET /a/\x7by\x7d` — fails with the duplicate-shape
configuration error, and every table a successful compilation produces is
free of duplicate (method, shape) pairs, so a running server never serves
from such a table. -/
theorem claim9_duplicate_shape :
    compile [axSpec, aySpec] = .error .duplicateShape
    ∧ ∀ specs table, compile specs = .ok table → List.Pairwise noConflict table :=
  ⟨by rfl, fun specs table h => compile_pairwise specs table h⟩

/-- Witness for C9: the table compiled from the distinct-shape pair is
conflict-free. -/
theorem claim9_witness : List.Pairwise noConflict [meRoute, idRoute] :=
  claim9_duplicate_shape.2 [meSpec, idSpec] [meRoute, idRoute] (by rfl)

/-- C2: a parameter segment captures any single non-empty request segment —
`PATCH /api/users/v` matches the `PATCH /api/users/\x7bid\x7d` route for every
non-empty slash-free value `v`, capturing it under `id`; a request with a
different segment count yields `notFound`; generically, a pattern of literals
followed by a parameter matches those literals followed by any non-empty
value, and no pattern matches a request of a different segment count. -/
theorem claim2_param_capture (v : String) (hv : v ≠ "") (hs : ∀ c ∈ v.data, c ≠ '/') :
    matchTable usersIdTable "PATCH" ("/api/users/" ++ v) = .matched usersIdRoute [("id", v)]
    ∧ matchTable usersIdTable "PATCH" "/api/users" = .notFound
    ∧ (∀ (pre : List String) (n w : String), w ≠ "" →
        matchSegs (pre.map PathSegment.lit ++ [.param n]) (pre ++ [w]) = some [(n, w)])
    ∧ ∀ (segs : List PathSegment) (req : List String),
        req.length ≠ segs.length → matchSegs segs req = none := by
  refine ⟨?_, by rfl, fun pre n w hw => matchSegs_lits_param pre n w hw, matchSegs_length_ne⟩
  have hv2 : splitSegsAux v.data = [v.data] := splitSegsAux_no_slash v.data hs
  have hsplit : splitSegsAux ("/api/users/" ++ v).data
      = [[], "api".data, "users".data, v.data] := by
    rw [String.data_append]
    show splitSegsAux
        ('/' :: 'a' :: 'p' :: 'i' :: '/' :: 'u' :: 's' :: 'e' :: 'r' :: 's' :: '/' :: v.data)
      = _
    simp [splitSegsAux, hv2]
  have hnorm : normalizePath ("/api/users/" ++ v) = ["api", "users", v] := by
    unfold normalizePath splitSegs
    rw [hsplit]
    simp [hv]
  have hseg : matchSegs usersIdRoute.segments ["api", "users", v] = some [("id", v)] := by
    simp [usersIdRoute, matchSegs, hv]
  simp [matchTable, hnorm, pathMatches, usersIdTable, hseg, List.find?]
  rw [if_pos (show usersIdRoute.method = upperStr "PATCH" from rfl)]

/-- Witness for C2 at the spec's example value `123`. -/
theorem claim2_witness :
    matchTable usersIdTable "PATCH" ("/api/users/" ++ "123")
        = .matched usersIdRoute [("id", "123")]
    ∧ matchTable usersIdTable "PATCH" "/api/users" = .notFound :=
  ⟨(claim2_param_capture "123" (by decide) (by decide)).1,
    (claim2_param_capture "123" (by decide) (by decide)).2.1⟩

/-- C10: any non-empty method string compiles — unrecognized verbs are
accepted as opaque strings (only an empty method is a configuration error)
and matched by exact string equality of the uppercased forms. -/
theorem claim10_opaque_methods (m : String) (hm : m ≠ "") (status : Int) (body : GoValue) :
    compile [⟨m, "/a", status, body⟩] = .ok [⟨upperStr m, [.lit "a"], status, body⟩]
    ∧ (∀ reqM : String,
        matchTable [⟨upperStr m, [.lit "a"], status, body⟩] reqM "/a"
            = .matched ⟨upperStr m, [.lit "a"], status, body⟩ []
          ↔ upperStr reqM = upperStr m)
    ∧ compile [⟨"", "/a", status, body⟩] = .error .emptyMethod := by
  refine ⟨?_, ?_, by rfl⟩
  · have hcs : compileSpec ⟨m, "/a", status, body⟩
        = .ok ⟨upperStr m, [.lit "a"], status, body⟩ := by
      unfold compileSpec
      rw [if_neg hm]
      rfl
    simp [compile, compileAux, hcs]
  · intro reqM
    have hpm : pathMatches [⟨upperStr m, [.lit "a"], status, body⟩] (normalizePath "/a")
        = [(⟨upperStr m, [.lit "a"], status, body⟩, [])] := rfl
    by_cases h : upperStr reqM = upperStr m
    · have hbe : (upperStr m == upperStr reqM) = true := by simp [h]
      constructor
      · intro _; exact h
      · intro _
        simp [matchTable, hpm, List.find?, hbe]
    · have hbe : (upperStr m == upperStr reqM) = false :=
        beq_eq_false_iff_ne.mpr (fun e => h e.symm)
      constructor
      · intro hmt
        rw [show matchTable [⟨upperStr m, [.lit "a"], status, body⟩] reqM "/a"
              = .methodNotAllowed (dedup [upperStr m]) by
            simp [matchTable, hpm, List.find?, hbe]] at hmt
        exact absurd hmt (by simp)
      · intro hh; exact absurd hh h

/-- Witness for C10 at the undocumented verb `FROB`, requested as `frob`. -/
theorem claim10_witness :
    compile [⟨"FROB", "/a", 200, .json .null⟩]
        = .ok [⟨upperStr "FROB", [.lit "a"], 200, .json .null⟩]
    ∧ (matchTable [⟨upperStr "FROB", [.lit "a"], 200, .json .null⟩] "frob" "/a"
          = .matched ⟨upperStr "FROB", [.lit "a"], 200, .json .null⟩ []
        ↔ upperStr "frob" = upperStr "FROB") :=
  ⟨(claim10_opaque_methods "FROB" (by decide) 200 (.json .null)).1,
    (claim10_opaque_methods "FROB" (by decide) 200 (.json .null)).2.1 "frob"⟩
